import Mathlib

/-!
Verification of the CSS selector parser and serializer of
`src/server/common/cssParser.ts` (Playwright).

The parser is embedded shallowly: the token stream is a `List Token`, the
mutable cursor of the source becomes an explicit position `Nat`, the
mutually recursive grammar rules become fuel-indexed Lean functions, and
thrown exceptions become the `err` constructor of `PRes`.  The external
tokenizer (`cssTokenizer.ts`, consumed but not implemented by this file's
source) is modelled from the spec where concrete string inputs are needed.
-/

namespace PlaywrightCss

/-- Token kinds produced by the external tokenizer, as consumed by the
parser.  Modelled from the spec: the tokenizer itself is out of scope; each
token carries its kind, its value where the parser reads one, and its source
slice where the parser reconstructs text from it. -/
inductive Token where
  | identTok (value : String)
  | stringTok (value : String)
  | numberTok (value : Int) (source : String)
  | commaTok
  | wsTok (source : String)
  | colonTok
  | hashTok (source : String)
  | delimTok (value : Char)
  | functionTok (value : String)
  | openParenTok
  | closeParenTok
  | openSquareTok
  | closeSquareTok
  | eofTok
  | atKeywordTok (source : String)
  | badStringTok (source : String)
  | badUrlTok (source : String)
  | columnTok
  | cdoTok
  | cdcTok
  | semiTok
  | openCurlyTok
  | closeCurlyTok
  | urlTok (source : String)
  | percentageTok (source : String)
deriving DecidableEq, Repr

/-- The token's source slice (`toSource()` in the tokenizer library).
Modelled from the spec: "the exact substring it was lexed from, used for
verbatim reconstruction and error messages". -/
def Token.toSource : Token → String
  | .identTok v => v
  | .stringTok v => "\"" ++ v ++ "\""
  | .numberTok _ s => s
  | .commaTok => ","
  | .wsTok s => s
  | .colonTok => ":"
  | .hashTok s => s
  | .delimTok c => String.singleton c
  | .functionTok v => v ++ "("
  | .openParenTok => "("
  | .closeParenTok => ")"
  | .openSquareTok => "["
  | .closeSquareTok => "]"
  | .eofTok => ""
  | .atKeywordTok s => s
  | .badStringTok s => s
  | .badUrlTok s => s
  | .columnTok => "||"
  | .cdoTok => "<!--"
  | .cdcTok => "-->"
  | .semiTok => ";"
  | .openCurlyTok => "\x7b"
  | .closeCurlyTok => "\x7d"
  | .urlTok s => s
  | .percentageTok s => s

/-- The rejected token kinds scanned for by `parseCSS` before parsing
(cssParser.ts lines 44-60). -/
def Token.isUnsupported : Token → Bool
  | .atKeywordTok _ => true
  | .badStringTok _ => true
  | .badUrlTok _ => true
  | .columnTok => true
  | .cdoTok => true
  | .cdcTok => true
  | .semiTok => true
  | .openCurlyTok => true
  | .closeCurlyTok => true
  | .urlTok _ => true
  | .percentageTok _ => true
  | _ => false

def Token.isWhitespace : Token → Bool
  | .wsTok _ => true
  | _ => false

def Token.isIdent : Token → Bool
  | .identTok _ => true
  | _ => false

def Token.isComma : Token → Bool
  | .commaTok => true
  | _ => false

def Token.isCloseParen : Token → Bool
  | .closeParenTok => true
  | _ => false

def Token.isCloseSquare : Token → Bool
  | .closeSquareTok => true
  | _ => false

def Token.isEOF : Token → Bool
  | .eofTok => true
  | _ => false

/-- `isClauseCombinator` of cssParser.ts line 103. -/
def Token.isClauseCombinator : Token → Bool
  | .delimTok c => c == '>' || c == '+' || c == '~'
  | _ => false

/-- `isSelectorClauseEnd` of cssParser.ts line 107. -/
def Token.isSelectorClauseEnd (t : Token) : Bool :=
  t.isComma || t.isCloseParen || t.isEOF || t.isClauseCombinator || t.isWhitespace

/-- The token at a cursor position.  The source guarantees an end-of-input
token terminates the list, so an out-of-range cursor reads as end-of-input. -/
def tokAt (ts : List Token) (pos : Nat) : Token := ts.getD pos .eofTok

mutual
/-- `CSSFunctionArgument` of cssParser.ts line 24: a complex selector, a
number or a string. -/
inductive CSSFunctionArgument where
  | num (value : Int) : CSSFunctionArgument
  | str (value : String) : CSSFunctionArgument
  | sel (value : CSSComplexSelector) : CSSFunctionArgument

/-- `CSSFunction` of cssParser.ts line 25. -/
inductive CSSFunction where
  | mk (name : String) (args : List CSSFunctionArgument) : CSSFunction

/-- `CSSSimpleSelector` of cssParser.ts line 26: optional raw CSS text plus
a list of engine functions. -/
inductive CSSSimpleSelector where
  | mk (css : Option String) (functions : List CSSFunction) : CSSSimpleSelector

/-- One element of the `simple` array of a `CSSComplexSelector`
(cssParser.ts line 27). -/
inductive CSSClause where
  | mk (selector : CSSSimpleSelector) (combinator : String) : CSSClause

/-- `CSSComplexSelector` of cssParser.ts line 27. -/
inductive CSSComplexSelector where
  | mk (simple : List CSSClause) : CSSComplexSelector
end

abbrev CSSSelectorList := List CSSComplexSelector

def CSSFunction.name : CSSFunction → String
  | .mk n _ => n

def CSSFunction.args : CSSFunction → List CSSFunctionArgument
  | .mk _ a => a

def CSSSimpleSelector.css : CSSSimpleSelector → Option String
  | .mk c _ => c

def CSSSimpleSelector.functions : CSSSimpleSelector → List CSSFunction
  | .mk _ f => f

def CSSClause.selector : CSSClause → CSSSimpleSelector
  | .mk s _ => s

def CSSClause.combinator : CSSClause → String
  | .mk _ c => c

def CSSComplexSelector.simple : CSSComplexSelector → List CSSClause
  | .mk s => s

def CSSFunctionArgument.isSel : CSSFunctionArgument → Bool
  | .sel _ => true
  | _ => false

def CSSFunctionArgument.getSel : CSSFunctionArgument → Option CSSComplexSelector
  | .sel c => some c
  | _ => none

/-- `builtinCSSFilters` of cssParser.ts lines 232-239. -/
def builtinCSSFilters : List String :=
  ["active", "any-link", "checked", "blank", "default", "defined",
   "disabled", "empty", "enabled", "first", "first-child", "first-of-type",
   "fullscreen", "focus", "focus-visible", "focus-within", "hover",
   "indeterminate", "in-range", "invalid", "last-child", "last-of-type",
   "link", "only-child", "only-of-type", "optional", "out-of-range", "placeholder-shown",
   "read-only", "read-write", "required", "root", "target", "valid", "visited"]

/-- `builtinCSSFunctions` of cssParser.ts lines 241-243. -/
def builtinCSSFunctions : List String :=
  ["dir", "lang", "nth-child", "nth-last-child", "nth-last-of-type", "nth-of-type"]

/-- Result of a parsing function: a value together with the new cursor
position, a thrown error message, or fuel exhaustion (which the source
cannot exhibit; see `parseCSSTokensR_ne_fuelOut`). -/
inductive PRes (α : Type) where
  | ok (val : α) (pos : Nat)
  | err (msg : String)
  | fuelOut
deriving Repr

/-- The message of `unexpected()` (cssParser.ts line 66). -/
def unexpectedMsg (selector : String) (ts : List Token) (pos : Nat) : String :=
  "Unexpected token \"" ++ (tokAt ts pos).toSource ++ "\" while parsing selector \"" ++ selector ++ "\""

/-- The unsupported-token message (cssParser.ts line 62). -/
def unsupportedMsg (selector : String) (t : Token) : String :=
  "Unsupported token \"" ++ t.toSource ++ "\" while parsing selector \"" ++ selector ++ "\""

/-- The generic top-level parse error message (cssParser.ts lines 210 and 212). -/
def topLevelErrMsg (selector : String) : String :=
  "Error while parsing selector \"" ++ selector ++ "\""

/-- The loop of `skipWhitespace`, structurally recursive on the remaining
length (while the cursor is in range, one token is inspected per step; an
out-of-range cursor reads end-of-input, which is not whitespace, so the
budget `ts.length - pos` is exact). -/
def skipWhitespaceAux (ts : List Token) : Nat → Nat → Nat
  | 0, pos => pos
  | n + 1, pos =>
    if (tokAt ts pos).isWhitespace then skipWhitespaceAux ts n (pos + 1) else pos

/-- `skipWhitespace` of cssParser.ts line 70, returning the new cursor. -/
def skipWhitespace (ts : List Token) (pos : Nat) : Nat :=
  skipWhitespaceAux ts (ts.length - pos) pos

/-- The loop of `consumeBuiltinFunctionArguments`, structurally recursive
on the remaining length (past the end the cursor reads end-of-input, which
stops the loop, so the budget `ts.length - pos` is exact). -/
def consumeBuiltinFunctionArgumentsAux (ts : List Token) : Nat → Nat → String × Nat
  | 0, pos => ("", pos)
  | n + 1, pos =>
    let t := tokAt ts pos
    if t.isCloseParen || t.isEOF then ("", pos)
    else
      let r := consumeBuiltinFunctionArgumentsAux ts n (pos + 1)
      (t.toSource ++ r.1, r.2)

/-- `consumeBuiltinFunctionArguments` of cssParser.ts line 201: concatenate
source text until a close-parenthesis or end-of-input (not consumed). -/
def consumeBuiltinFunctionArguments (ts : List Token) (pos : Nat) : String × Nat :=
  consumeBuiltinFunctionArgumentsAux ts (ts.length - pos) pos

/-- The inner loop of the square-bracket branch of `consumeSimpleSelector`
(cssParser.ts lines 186-187), structurally recursive on the remaining
length: concatenate source text until a close square bracket or
end-of-input (not consumed). -/
def consumeBracketContentsAux (ts : List Token) : Nat → Nat → String × Nat
  | 0, pos => ("", pos)
  | n + 1, pos =>
    let t := tokAt ts pos
    if t.isCloseSquare || t.isEOF then ("", pos)
    else
      let r := consumeBracketContentsAux ts n (pos + 1)
      (t.toSource ++ r.1, r.2)

/-- The square-bracket content loop of cssParser.ts lines 186-187. -/
def consumeBracketContents (ts : List Token) (pos : Nat) : String × Nat :=
  consumeBracketContentsAux ts (ts.length - pos) pos

/-- `result.simple[result.simple.length - 1].combinator = ...` of
cssParser.ts line 138: overwrite the combinator of the last clause. -/
def setLastCombinator (l : List CSSClause) (comb : String) : List CSSClause :=
  match l with
  | [] => []
  | [CSSClause.mk s _] => [CSSClause.mk s comb]
  | c :: (c2 :: rest) => c :: setLastCombinator (c2 :: rest) comb

mutual
/-- `consumeFunctionArguments` of cssParser.ts line 111. -/
def consumeFunctionArguments (selector : String) (ts : List Token) :
    Nat → Nat → PRes (List CSSFunctionArgument)
  | 0, _ => .fuelOut
  | fuel + 1, pos =>
    match consumeArgument selector ts fuel pos with
    | .ok a p => consumeFunctionArgumentsLoop selector ts fuel p [a]
    | .err m => .err m
    | .fuelOut => .fuelOut
termination_by structural fuel _ => fuel

/-- The `while (true)` loop of `consumeFunctionArguments`
(cssParser.ts lines 113-119). -/
def consumeFunctionArgumentsLoop (selector : String) (ts : List Token) :
    Nat → Nat → List CSSFunctionArgument → PRes (List CSSFunctionArgument)
  | 0, _, _ => .fuelOut
  | fuel + 1, pos, acc =>
    let p := skipWhitespace ts pos
    if (tokAt ts p).isComma then
      match consumeArgument selector ts fuel (p + 1) with
      | .ok a p2 => consumeFunctionArgumentsLoop selector ts fuel p2 (acc ++ [a])
      | .err m => .err m
      | .fuelOut => .fuelOut
    else .ok acc p
termination_by structural fuel _ _ => fuel

/-- `consumeArgument` of cssParser.ts line 123. -/
def consumeArgument (selector : String) (ts : List Token) :
    Nat → Nat → PRes CSSFunctionArgument
  | 0, _ => .fuelOut
  | fuel + 1, pos =>
    let p := skipWhitespace ts pos
    match tokAt ts p with
    | .numberTok v _ => .ok (.num v) (p + 1)
    | .stringTok v => .ok (.str v) (p + 1)
    | _ =>
      match consumeComplexSelector selector ts fuel p with
      | .ok c p2 => .ok (.sel c) p2
      | .err m => .err m
      | .fuelOut => .fuelOut
termination_by structural fuel _ => fuel

/-- `consumeComplexSelector` of cssParser.ts line 132. -/
def consumeComplexSelector (selector : String) (ts : List Token) :
    Nat → Nat → PRes CSSComplexSelector
  | 0, _ => .fuelOut
  | fuel + 1, pos =>
    let p := skipWhitespace ts pos
    match consumeSimpleSelector selector ts fuel p with
    | .ok s p1 => consumeComplexSelectorLoop selector ts fuel p1 [CSSClause.mk s ""]
    | .err m => .err m
    | .fuelOut => .fuelOut
termination_by structural fuel _ => fuel

/-- The `while (true)` loop of `consumeComplexSelector`
(cssParser.ts lines 135-144). -/
def consumeComplexSelectorLoop (selector : String) (ts : List Token) :
    Nat → Nat → List CSSClause → PRes CSSComplexSelector
  | 0, _, _ => .fuelOut
  | fuel + 1, pos, acc =>
    let p := skipWhitespace ts pos
    if (tokAt ts p).isClauseCombinator then
      let acc1 := setLastCombinator acc (tokAt ts p).toSource
      let p1 := skipWhitespace ts (p + 1)
      match consumeSimpleSelector selector ts fuel p1 with
      | .ok s p2 => consumeComplexSelectorLoop selector ts fuel p2 (acc1 ++ [CSSClause.mk s ""])
      | .err m => .err m
      | .fuelOut => .fuelOut
    else if (tokAt ts p).isSelectorClauseEnd then .ok (CSSComplexSelector.mk acc) p
    else
      match consumeSimpleSelector selector ts fuel p with
      | .ok s p2 => consumeComplexSelectorLoop selector ts fuel p2 (acc ++ [CSSClause.mk s ""])
      | .err m => .err m
      | .fuelOut => .fuelOut
termination_by structural fuel _ _ => fuel

/-- `consumeSimpleSelector` of cssParser.ts line 148. -/
def consumeSimpleSelector (selector : String) (ts : List Token) :
    Nat → Nat → PRes CSSSimpleSelector
  | 0, _ => .fuelOut
  | fuel + 1, pos => consumeSimpleSelectorLoop selector ts fuel pos "" []
termination_by structural fuel _ => fuel

/-- The `while (!isSelectorClauseEnd())` loop of `consumeSimpleSelector`
(cssParser.ts lines 152-198), with the accumulated raw CSS string and
function list as explicit arguments, followed by the final empty-selector
check of lines 196-198. -/
def consumeSimpleSelectorLoop (selector : String) (ts : List Token) :
    Nat → Nat → String → List CSSFunction → PRes CSSSimpleSelector
  | 0, _, _, _ => .fuelOut
  | fuel + 1, pos, raw, fns =>
    if (tokAt ts pos).isSelectorClauseEnd then
      if raw = "" && fns.isEmpty then .err (unexpectedMsg selector ts pos)
      else .ok (CSSSimpleSelector.mk (if raw = "" then none else some raw) fns) pos
    else
      match tokAt ts pos with
      | .identTok v => consumeSimpleSelectorLoop selector ts fuel (pos + 1) (raw ++ v) fns
      | .hashTok s => consumeSimpleSelectorLoop selector ts fuel (pos + 1) (raw ++ s) fns
      | .delimTok c =>
        if c = '*' then consumeSimpleSelectorLoop selector ts fuel (pos + 1) (raw ++ "*") fns
        else if c = '.' then
          match tokAt ts (pos + 1) with
          | .identTok v => consumeSimpleSelectorLoop selector ts fuel (pos + 2) (raw ++ "." ++ v) fns
          | _ => .err (unexpectedMsg selector ts (pos + 1))
        else .err (unexpectedMsg selector ts pos)
      | .colonTok =>
        match tokAt ts (pos + 1) with
        | .identTok v =>
          if builtinCSSFilters.contains v then
            consumeSimpleSelectorLoop selector ts fuel (pos + 2) (raw ++ ":" ++ v) fns
          else
            consumeSimpleSelectorLoop selector ts fuel (pos + 2) raw (fns ++ [CSSFunction.mk v []])
        | .functionTok fname =>
          if builtinCSSFunctions.contains fname then
            let r := consumeBuiltinFunctionArguments ts (pos + 2)
            let p3 := skipWhitespace ts r.2
            if (tokAt ts p3).isCloseParen then
              consumeSimpleSelectorLoop selector ts fuel (p3 + 1)
                (raw ++ ":" ++ fname ++ "(" ++ r.1 ++ ")") fns
            else .err (unexpectedMsg selector ts p3)
          else
            match consumeFunctionArguments selector ts fuel (pos + 2) with
            | .ok args p2 =>
              let p3 := skipWhitespace ts p2
              if (tokAt ts p3).isCloseParen then
                consumeSimpleSelectorLoop selector ts fuel (p3 + 1) raw
                  (fns ++ [CSSFunction.mk fname args])
              else .err (unexpectedMsg selector ts p3)
            | .err m => .err m
            | .fuelOut => .fuelOut
        | _ => .err (unexpectedMsg selector ts (pos + 1))
      | .openSquareTok =>
        let r := consumeBracketContents ts (pos + 1)
        if (tokAt ts r.2).isCloseSquare then
          consumeSimpleSelectorLoop selector ts fuel (r.2 + 1) (raw ++ "[" ++ r.1 ++ "]") fns
        else .err (unexpectedMsg selector ts r.2)
      | _ => .err (unexpectedMsg selector ts pos)
termination_by structural fuel _ _ _ => fuel
end

/-- The EOF-append step of `parseCSS` (cssParser.ts lines 34-35). -/
def appendEOF (ts : List Token) : List Token :=
  if ts.getLast? = some Token.eofTok then ts else ts ++ [Token.eofTok]

/-- Fuel sufficient for any token list (see `parseCSSTokensR_ne_fuelOut`). -/
def parseFuel (ts : List Token) : Nat := 5 * ts.length + 6

/-- `parseCSS` of cssParser.ts line 30, taking the already-tokenized input
(the tokenizer being external): append the end-of-input token if missing,
reject unsupported tokens, consume the outer function-argument list, then
require end-of-input and uniformly selector-shaped arguments. -/
def parseCSSTokensR (selector : String) (rawTokens : List Token) : PRes CSSSelectorList :=
  let ts := appendEOF rawTokens
  match ts.find? Token.isUnsupported with
  | some t => .err (unsupportedMsg selector t)
  | none =>
    match consumeFunctionArguments selector ts (parseFuel ts) 0 with
    | .ok args p =>
      if (tokAt ts p).isEOF then
        if args.all CSSFunctionArgument.isSel then
          .ok (args.filterMap CSSFunctionArgument.getSel) p
        else .err (topLevelErrMsg selector)
      else .err (topLevelErrMsg selector)
    | .err m => .err m
    | .fuelOut => .fuelOut

/-- `parseCSS` as an `Except`: thrown errors become `.error msg`. -/
def parseCSSTokens (selector : String) (rawTokens : List Token) :
    Except String CSSSelectorList :=
  match parseCSSTokensR selector rawTokens with
  | .ok v _ => .ok v
  | .err m => .error m
  | .fuelOut => .error "out of fuel"

/-- Modelled from the spec: character class of identifier continuation
characters for the external tokenizer (letters, digits, hyphen,
underscore). -/
def isIdentChar (c : Char) : Bool := c.isAlpha || c.isDigit || c = '-' || c = '_'

/-- Modelled from the spec: whitespace characters for the external
tokenizer. -/
def isWsChar (c : Char) : Bool := c = ' ' || c = '\t' || c = '\n' || c = '\r'

/-- Modelled from the spec: the body of a double-quoted string for the
external tokenizer — characters up to an unescaped closing quote (a
backslash escapes the next character); an unterminated string at
end-of-input yields the content read so far. -/
def consumeStringChars : List Char → String × List Char
  | [] => ("", [])
  | '"' :: rest => ("", rest)
  | '\\' :: c :: rest =>
    let r := consumeStringChars rest
    (String.singleton c ++ r.1, r.2)
  | c :: rest =>
    let r := consumeStringChars rest
    (String.singleton c ++ r.1, r.2)

def digitsToNat (ds : List Char) : Nat :=
  ds.foldl (fun acc c => acc * 10 + (c.toNat - '0'.toNat)) 0

/-- Modelled from the spec: the external tokenizer (`cssTokenizer.ts` is
consumed by the parser but not part of this file's source).  It converts a
raw string into classified tokens — identifiers, function tokens
(identifier directly followed by an open parenthesis), integers with an
optional sign, double-quoted strings, hash tokens, whitespace runs,
punctuation, and delimiters — sufficient for the concrete selector strings
considered here.  The parser appends the end-of-input token itself. -/
def tokenizeLoop : Nat → List Char → List Token
  | 0, _ => []
  | _, [] => []
  | fuel + 1, c :: rest =>
    if isWsChar c then
      let run := (c :: rest).takeWhile isWsChar
      Token.wsTok (String.mk run) :: tokenizeLoop fuel ((c :: rest).dropWhile isWsChar)
    else if c.isAlpha || c = '_' then
      let run := (c :: rest).takeWhile isIdentChar
      let rem := (c :: rest).dropWhile isIdentChar
      match rem with
      | '(' :: rem2 => Token.functionTok (String.mk run) :: tokenizeLoop fuel rem2
      | _ => Token.identTok (String.mk run) :: tokenizeLoop fuel rem
    else if c.isDigit then
      let ds := (c :: rest).takeWhile Char.isDigit
      let rem := (c :: rest).dropWhile Char.isDigit
      Token.numberTok (Int.ofNat (digitsToNat ds)) (String.mk ds) :: tokenizeLoop fuel rem
    else if (c = '+' || c = '-') && (match rest with | d :: _ => d.isDigit | [] => false) then
      let ds := rest.takeWhile Char.isDigit
      let rem := rest.dropWhile Char.isDigit
      let n : Int := Int.ofNat (digitsToNat ds)
      Token.numberTok (if c = '-' then -n else n) (String.singleton c ++ String.mk ds) ::
        tokenizeLoop fuel rem
    else if c = '"' then
      let r := consumeStringChars rest
      Token.stringTok r.1 :: tokenizeLoop fuel r.2
    else if c = '#' then
      match rest with
      | d :: _ =>
        if isIdentChar d then
          let run := rest.takeWhile isIdentChar
          Token.hashTok ("#" ++ String.mk run) :: tokenizeLoop fuel (rest.dropWhile isIdentChar)
        else Token.delimTok '#' :: tokenizeLoop fuel rest
      | [] => Token.delimTok '#' :: tokenizeLoop fuel rest
    else if c = ',' then Token.commaTok :: tokenizeLoop fuel rest
    else if c = ':' then Token.colonTok :: tokenizeLoop fuel rest
    else if c = '(' then Token.openParenTok :: tokenizeLoop fuel rest
    else if c = ')' then Token.closeParenTok :: tokenizeLoop fuel rest
    else if c = '[' then Token.openSquareTok :: tokenizeLoop fuel rest
    else if c = ']' then Token.closeSquareTok :: tokenizeLoop fuel rest
    else if c = ';' then Token.semiTok :: tokenizeLoop fuel rest
    else Token.delimTok c :: tokenizeLoop fuel rest

/-- Modelled from the spec: `tokenize(text) -> sequence of Token`. -/
def tokenize (s : String) : List Token := tokenizeLoop (s.length + 1) s.data

/-- `parseCSS` of cssParser.ts line 30 on a raw selector string, using the
spec-modelled tokenizer. -/
def parseCSS (selector : String) : Except String CSSSelectorList :=
  parseCSSTokens selector (tokenize selector)

/-- Re-parse a serialized fragment as a function-argument list: the same
pipeline as `parseCSS` (tokenize, append end-of-input, unsupported-token
guard, `consumeFunctionArguments`, require end-of-input) but without the
top-level everything-is-a-selector restriction, so that bare string and
number arguments survive. -/
def reparseFunctionArguments (text : String) : Except String (List CSSFunctionArgument) :=
  let ts := appendEOF (tokenize text)
  match ts.find? Token.isUnsupported with
  | some t => .error (unsupportedMsg text t)
  | none =>
    match consumeFunctionArguments text ts (parseFuel ts) 0 with
    | .ok args p =>
      if (tokAt ts p).isEOF then .ok args
      else .error (topLevelErrMsg text)
    | .err m => .error m
    | .fuelOut => .error "out of fuel"

mutual
/-- `serializeSelector` of cssParser.ts line 216: arguments joined with a
comma and a space. -/
def serializeSelector : List CSSFunctionArgument → String
  | [] => ""
  | [a] => serializeArg a
  | a :: rest => serializeArg a ++ ", " ++ serializeSelector rest
termination_by structural x => x

/-- One argument of `serializeSelector`: strings are wrapped in double
quotes with no escaping, numbers use decimal formatting, complex selectors
recurse. -/
def serializeArg : CSSFunctionArgument → String
  | .num v => toString v
  | .str s => "\"" ++ s ++ "\""
  | .sel c => serializeComplex c
termination_by structural x => x

def serializeComplex : CSSComplexSelector → String
  | .mk simple => serializeClauses simple
termination_by structural x => x

/-- The clauses of one complex selector, joined with single spaces
(cssParser.ts line 228). -/
def serializeClauses : List CSSClause → String
  | [] => ""
  | [c] => serializeClause c
  | c :: rest => serializeClause c ++ " " ++ serializeClauses rest
termination_by structural x => x

/-- One clause: raw CSS (or empty), each function as `:name(args)`, then
a space and the combinator when the combinator is non-empty
(cssParser.ts lines 222-227). -/
def serializeClause : CSSClause → String
  | .mk s comb =>
    serializeSimple s ++ (if comb = "" then "" else " " ++ comb)
termination_by structural x => x

def serializeSimple : CSSSimpleSelector → String
  | .mk css fns => css.getD "" ++ serializeFns fns
termination_by structural x => x

def serializeFns : List CSSFunction → String
  | [] => ""
  | f :: rest => serializeFn f ++ serializeFns rest
termination_by structural x => x

def serializeFn : CSSFunction → String
  | .mk fname args => ":" ++ fname ++ "(" ++ serializeSelector args ++ ")"
termination_by structural x => x
end

/-- The combinator of the last clause of a list (empty string for the
empty list). -/
def lastCombinator (l : List CSSClause) : String :=
  match l.getLast? with
  | some c => c.combinator
  | none => ""

mutual
/-- Structural well-formedness of one function argument: numbers and
strings are always well-formed; a selector argument must be a well-formed
complex selector. -/
def argGood : CSSFunctionArgument → Bool
  | .num _ => true
  | .str _ => true
  | .sel c => complexGood c
termination_by structural x => x

def argsGood : List CSSFunctionArgument → Bool
  | [] => true
  | a :: rest => argGood a && argsGood rest
termination_by structural x => x

def fnGood : CSSFunction → Bool
  | .mk _ args => argsGood args
termination_by structural x => x

def fnsGood : List CSSFunction → Bool
  | [] => true
  | f :: rest => fnGood f && fnsGood rest
termination_by structural x => x

def simpleGood : CSSSimpleSelector → Bool
  | .mk _ fns => fnsGood fns
termination_by structural x => x

def clauseGood : CSSClause → Bool
  | .mk s _ => simpleGood s
termination_by structural x => x

def clausesGood : List CSSClause → Bool
  | [] => true
  | c :: rest => clauseGood c && clausesGood rest
termination_by structural x => x

/-- Structural well-formedness of a complex selector: the clause list is
non-empty, its last combinator is the empty string, and every nested
selector (through engine-function arguments) is well-formed too. -/
def complexGood : CSSComplexSelector → Bool
  | .mk simple => !simple.isEmpty && lastCombinator simple == "" && clausesGood simple
termination_by structural x => x
end

/-! ## Basic lemmas about the cursor helpers -/

theorem tokAt_eq_get (ts : List Token) (pos : Nat) (h : pos < ts.length) :
    tokAt ts pos = ts.get ⟨pos, h⟩ := by
  simp [tokAt, List.getD_eq_getElem?_getD, List.getElem?_eq_getElem h]

theorem tokAt_of_le (ts : List Token) (pos : Nat) (h : ts.length ≤ pos) :
    tokAt ts pos = .eofTok := by
  simp [tokAt, List.getD_eq_getElem?_getD, List.getElem?_eq_none h]

theorem lt_of_tokAt_ne_eof {ts : List Token} {pos : Nat}
    (h : tokAt ts pos ≠ .eofTok) : pos < ts.length := by
  by_contra hc
  exact h (tokAt_of_le ts pos (by omega))

theorem le_skipWhitespaceAux (ts : List Token) (n pos : Nat) :
    pos ≤ skipWhitespaceAux ts n pos := by
  induction n generalizing pos with
  | zero => exact Nat.le_refl pos
  | succ m ihm =>
    rw [skipWhitespaceAux]
    split
    · have := ihm (pos + 1)
      omega
    · exact Nat.le_refl pos

theorem le_skipWhitespace (ts : List Token) (pos : Nat) :
    pos ≤ skipWhitespace ts pos :=
  le_skipWhitespaceAux ts (ts.length - pos) pos

theorem skipWhitespaceAux_not_ws (ts : List Token) (n pos : Nat)
    (hn : ts.length ≤ pos + n) :
    (tokAt ts (skipWhitespaceAux ts n pos)).isWhitespace = false := by
  induction n generalizing pos with
  | zero =>
    rw [skipWhitespaceAux, tokAt_of_le ts pos (by omega)]
    rfl
  | succ m ihm =>
    rw [skipWhitespaceAux]
    split
    · exact ihm (pos + 1) (by omega)
    · rename_i hw
      exact Bool.not_eq_true _ ▸ hw

theorem skipWhitespace_not_ws (ts : List Token) (pos : Nat) :
    (tokAt ts (skipWhitespace ts pos)).isWhitespace = false :=
  skipWhitespaceAux_not_ws ts (ts.length - pos) pos (by omega)

theorem tokAt_cons_succ (t : Token) (ts : List Token) (pos : Nat) :
    tokAt (t :: ts) (pos + 1) = tokAt ts pos := by
  simp [tokAt]

theorem skipWhitespaceAux_cons (t : Token) (ts : List Token) (n pos : Nat) :
    skipWhitespaceAux (t :: ts) n (pos + 1) = skipWhitespaceAux ts n pos + 1 := by
  induction n generalizing pos with
  | zero => rfl
  | succ m ihm =>
    rw [skipWhitespaceAux, skipWhitespaceAux, tokAt_cons_succ]
    split
    · exact ihm (pos + 1)
    · rfl

theorem skipWhitespace_cons (t : Token) (ts : List Token) (pos : Nat) :
    skipWhitespace (t :: ts) (pos + 1) = skipWhitespace ts pos + 1 := by
  rw [skipWhitespace, skipWhitespace]
  have hlen : (t :: ts).length - (pos + 1) = ts.length - pos := by simp
  rw [hlen, skipWhitespaceAux_cons]

theorem le_consumeBuiltinFunctionArgumentsAux (ts : List Token) (n pos : Nat) :
    pos ≤ (consumeBuiltinFunctionArgumentsAux ts n pos).2 := by
  induction n generalizing pos with
  | zero => exact Nat.le_refl pos
  | succ m ihm =>
    rw [consumeBuiltinFunctionArgumentsAux]
    dsimp only
    split
    · exact Nat.le_refl pos
    · have := ihm (pos + 1)
      simp only []
      omega

theorem le_consumeBuiltinFunctionArguments (ts : List Token) (pos : Nat) :
    pos ≤ (consumeBuiltinFunctionArguments ts pos).2 :=
  le_consumeBuiltinFunctionArgumentsAux ts (ts.length - pos) pos

theorem le_consumeBracketContentsAux (ts : List Token) (n pos : Nat) :
    pos ≤ (consumeBracketContentsAux ts n pos).2 := by
  induction n generalizing pos with
  | zero => exact Nat.le_refl pos
  | succ m ihm =>
    rw [consumeBracketContentsAux]
    dsimp only
    split
    · exact Nat.le_refl pos
    · have := ihm (pos + 1)
      simp only []
      omega

theorem le_consumeBracketContents (ts : List Token) (pos : Nat) :
    pos ≤ (consumeBracketContents ts pos).2 :=
  le_consumeBracketContentsAux ts (ts.length - pos) pos

/-! ## Cursor progress: every grammar rule moves the cursor forward -/

theorem parserProgress (selector : String) (ts : List Token) : ∀ fuel : Nat,
    (∀ pos raw fns v p', consumeSimpleSelectorLoop selector ts fuel pos raw fns = .ok v p' →
      pos ≤ p' ∧ (raw = "" → fns = [] → pos < p')) ∧
    (∀ pos v p', consumeSimpleSelector selector ts fuel pos = .ok v p' → pos < p') ∧
    (∀ pos acc v p', consumeComplexSelectorLoop selector ts fuel pos acc = .ok v p' → pos ≤ p') ∧
    (∀ pos v p', consumeComplexSelector selector ts fuel pos = .ok v p' → pos < p') ∧
    (∀ pos v p', consumeArgument selector ts fuel pos = .ok v p' → pos < p') ∧
    (∀ pos acc v p', consumeFunctionArgumentsLoop selector ts fuel pos acc = .ok v p' → pos ≤ p') ∧
    (∀ pos v p', consumeFunctionArguments selector ts fuel pos = .ok v p' → pos < p') := by
  intro fuel
  induction fuel with
  | zero =>
    refine ⟨fun pos raw fns v p' h => ?_, fun pos v p' h => ?_, fun pos acc v p' h => ?_,
      fun pos v p' h => ?_, fun pos v p' h => ?_, fun pos acc v p' h => ?_,
      fun pos v p' h => ?_⟩ <;>
    simp [consumeSimpleSelectorLoop, consumeSimpleSelector, consumeComplexSelectorLoop,
      consumeComplexSelector, consumeArgument, consumeFunctionArgumentsLoop,
      consumeFunctionArguments] at h
  | succ f ih =>
    obtain ⟨ih1, ih2, ih3, ih4, ih5, ih6, ih7⟩ := ih
    refine ⟨?_, ?_, ?_, ?_, ?_, ?_, ?_⟩
    · -- consumeSimpleSelectorLoop
      intro pos raw fns v p' h
      rw [consumeSimpleSelectorLoop] at h
      try dsimp only at h
      split at h
      · split at h
        · cases h
        · rename_i hne
          cases h
          refine ⟨Nat.le_refl _, fun hraw hfns => ?_⟩
          subst hraw; subst hfns
          simp at hne
      · split at h
        · -- identTok
          have h1 := (ih1 _ _ _ _ _ h).1
          exact ⟨by omega, fun _ _ => by omega⟩
        · -- hashTok
          have h1 := (ih1 _ _ _ _ _ h).1
          exact ⟨by omega, fun _ _ => by omega⟩
        · -- delimTok
          split at h
          · have h1 := (ih1 _ _ _ _ _ h).1
            exact ⟨by omega, fun _ _ => by omega⟩
          · split at h
            · split at h
              · have h1 := (ih1 _ _ _ _ _ h).1
                exact ⟨by omega, fun _ _ => by omega⟩
              · cases h
            · cases h
        · -- colonTok
          split at h
          · -- identTok after colon
            split at h
            · have h1 := (ih1 _ _ _ _ _ h).1
              exact ⟨by omega, fun _ _ => by omega⟩
            · have h1 := (ih1 _ _ _ _ _ h).1
              exact ⟨by omega, fun _ _ => by omega⟩
          · -- functionTok after colon
            split at h
            · -- builtin function
              split at h
              · have hb := le_consumeBuiltinFunctionArguments ts (pos + 2)
                have hs := le_skipWhitespace ts (consumeBuiltinFunctionArguments ts (pos + 2)).2
                have h1 := (ih1 _ _ _ _ _ h).1
                exact ⟨by omega, fun _ _ => by omega⟩
              · cases h
            · -- custom function
              split at h
              · rename_i args p2 hfa
                have hf := ih7 _ _ _ hfa
                have hs := le_skipWhitespace ts p2
                split at h
                · have h1 := (ih1 _ _ _ _ _ h).1
                  exact ⟨by omega, fun _ _ => by omega⟩
                · cases h
              · cases h
              · cases h
          · cases h
        · -- openSquareTok
          have hb := le_consumeBracketContents ts (pos + 1)
          split at h
          · have h1 := (ih1 _ _ _ _ _ h).1
            exact ⟨by omega, fun _ _ => by omega⟩
          · cases h
        · cases h
    · -- consumeSimpleSelector
      intro pos v p' h
      rw [consumeSimpleSelector] at h
      exact (ih1 _ _ _ _ _ h).2 rfl rfl
    · -- consumeComplexSelectorLoop
      intro pos acc v p' h
      rw [consumeComplexSelectorLoop] at h
      try dsimp only at h
      have hsp := le_skipWhitespace ts pos
      split at h
      · split at h
        · rename_i s p2 hss
          have h1 := ih2 _ _ _ hss
          have h2 := ih3 _ _ _ _ h
          have h3 := le_skipWhitespace ts (skipWhitespace ts pos + 1)
          omega
        · cases h
        · cases h
      · split at h
        · cases h; omega
        · split at h
          · rename_i s p2 hss
            have h1 := ih2 _ _ _ hss
            have h2 := ih3 _ _ _ _ h
            omega
          · cases h
          · cases h
    · -- consumeComplexSelector
      intro pos v p' h
      rw [consumeComplexSelector] at h
      try dsimp only at h
      have hsp := le_skipWhitespace ts pos
      split at h
      · rename_i s p1 hss
        have h1 := ih2 _ _ _ hss
        have h2 := ih3 _ _ _ _ h
        omega
      · cases h
      · cases h
    · -- consumeArgument
      intro pos v p' h
      rw [consumeArgument] at h
      try dsimp only at h
      have hsp := le_skipWhitespace ts pos
      split at h
      · cases h; omega
      · cases h; omega
      · split at h
        · rename_i c p2 hcc
          have h1 := ih4 _ _ _ hcc
          cases h
          omega
        · cases h
        · cases h
    · -- consumeFunctionArgumentsLoop
      intro pos acc v p' h
      rw [consumeFunctionArgumentsLoop] at h
      try dsimp only at h
      have hsp := le_skipWhitespace ts pos
      split at h
      · split at h
        · rename_i a p2 harg
          have h1 := ih5 _ _ _ harg
          have h2 := ih6 _ _ _ _ h
          omega
        · cases h
        · cases h
      · cases h; omega
    · -- consumeFunctionArguments
      intro pos v p' h
      rw [consumeFunctionArguments] at h
      split at h
      · rename_i a p1 harg
        have h1 := ih5 _ _ _ harg
        have h2 := ih6 _ _ _ _ h
        omega
      · cases h
      · cases h

theorem progress_simpleSelector {selector : String} {ts : List Token} {fuel pos : Nat}
    {v : CSSSimpleSelector} {p' : Nat}
    (h : consumeSimpleSelector selector ts fuel pos = .ok v p') : pos < p' :=
  (parserProgress selector ts fuel).2.1 _ _ _ h

theorem progress_complexLoop {selector : String} {ts : List Token} {fuel pos : Nat}
    {acc : List CSSClause} {v : CSSComplexSelector} {p' : Nat}
    (h : consumeComplexSelectorLoop selector ts fuel pos acc = .ok v p') : pos ≤ p' :=
  (parserProgress selector ts fuel).2.2.1 _ _ _ _ h

theorem progress_complex {selector : String} {ts : List Token} {fuel pos : Nat}
    {v : CSSComplexSelector} {p' : Nat}
    (h : consumeComplexSelector selector ts fuel pos = .ok v p') : pos < p' :=
  (parserProgress selector ts fuel).2.2.2.1 _ _ _ h

theorem progress_argument {selector : String} {ts : List Token} {fuel pos : Nat}
    {v : CSSFunctionArgument} {p' : Nat}
    (h : consumeArgument selector ts fuel pos = .ok v p') : pos < p' :=
  (parserProgress selector ts fuel).2.2.2.2.1 _ _ _ h

theorem progress_faLoop {selector : String} {ts : List Token} {fuel pos : Nat}
    {acc : List CSSFunctionArgument} {v : List CSSFunctionArgument} {p' : Nat}
    (h : consumeFunctionArgumentsLoop selector ts fuel pos acc = .ok v p') : pos ≤ p' :=
  (parserProgress selector ts fuel).2.2.2.2.2.1 _ _ _ _ h

theorem progress_fa {selector : String} {ts : List Token} {fuel pos : Nat}
    {v : List CSSFunctionArgument} {p' : Nat}
    (h : consumeFunctionArguments selector ts fuel pos = .ok v p') : pos < p' :=
  (parserProgress selector ts fuel).2.2.2.2.2.2 _ _ _ h

/-! ## Fuel sufficiency: the parser always terminates -/

theorem parserSufficiency (selector : String) (ts : List Token) : ∀ fuel : Nat,
    (∀ pos raw fns, 5 * (ts.length - pos) + 1 ≤ fuel →
      consumeSimpleSelectorLoop selector ts fuel pos raw fns ≠ .fuelOut) ∧
    (∀ pos, 5 * (ts.length - pos) + 2 ≤ fuel →
      consumeSimpleSelector selector ts fuel pos ≠ .fuelOut) ∧
    (∀ pos acc, 5 * (ts.length - pos) + 3 ≤ fuel →
      consumeComplexSelectorLoop selector ts fuel pos acc ≠ .fuelOut) ∧
    (∀ pos, 5 * (ts.length - pos) + 4 ≤ fuel →
      consumeComplexSelector selector ts fuel pos ≠ .fuelOut) ∧
    (∀ pos, 5 * (ts.length - pos) + 5 ≤ fuel →
      consumeArgument selector ts fuel pos ≠ .fuelOut) ∧
    (∀ pos acc, 5 * (ts.length - pos) + 1 ≤ fuel →
      consumeFunctionArgumentsLoop selector ts fuel pos acc ≠ .fuelOut) ∧
    (∀ pos, 5 * (ts.length - pos) + 6 ≤ fuel →
      consumeFunctionArguments selector ts fuel pos ≠ .fuelOut) := by
  intro fuel
  induction fuel with
  | zero =>
    refine ⟨fun pos raw fns hb => ?_, fun pos hb => ?_, fun pos acc hb => ?_, fun pos hb => ?_,
      fun pos hb => ?_, fun pos acc hb => ?_, fun pos hb => ?_⟩ <;> omega
  | succ f ih =>
    obtain ⟨ih1, ih2, ih3, ih4, ih5, ih6, ih7⟩ := ih
    refine ⟨?_, ?_, ?_, ?_, ?_, ?_, ?_⟩
    · -- consumeSimpleSelectorLoop
      intro pos raw fns hb
      rw [consumeSimpleSelectorLoop]
      dsimp only
      split
      · split <;> simp
      · rename_i hend
        split
        · -- identTok
          rename_i v heq
          have hlt : pos < ts.length := lt_of_tokAt_ne_eof (by simp [heq])
          exact ih1 _ _ _ (by omega)
        · -- hashTok
          rename_i s heq
          have hlt : pos < ts.length := lt_of_tokAt_ne_eof (by simp [heq])
          exact ih1 _ _ _ (by omega)
        · -- delimTok
          rename_i c heq
          have hlt : pos < ts.length := lt_of_tokAt_ne_eof (by simp [heq])
          split
          · exact ih1 _ _ _ (by omega)
          · split
            · split
              · rename_i v heq2
                have hlt2 : pos + 1 < ts.length := lt_of_tokAt_ne_eof (by simp [heq2])
                exact ih1 _ _ _ (by omega)
              · simp
            · simp
        · -- colonTok
          rename_i heq
          have hlt : pos < ts.length := lt_of_tokAt_ne_eof (by simp [heq])
          split
          · rename_i v heq2
            have hlt2 : pos + 1 < ts.length := lt_of_tokAt_ne_eof (by simp [heq2])
            split
            · exact ih1 _ _ _ (by omega)
            · exact ih1 _ _ _ (by omega)
          · rename_i fname heq2
            have hlt2 : pos + 1 < ts.length := lt_of_tokAt_ne_eof (by simp [heq2])
            split
            · -- builtin function
              have hba := le_consumeBuiltinFunctionArguments ts (pos + 2)
              have hsw := le_skipWhitespace ts (consumeBuiltinFunctionArguments ts (pos + 2)).2
              split
              · exact ih1 _ _ _ (by omega)
              · simp
            · -- custom function
              split
              · rename_i args p2 hfa
                have hp2 := progress_fa hfa
                have hsw := le_skipWhitespace ts p2
                split
                · exact ih1 _ _ _ (by omega)
                · simp
              · simp
              · rename_i hfa
                exact absurd hfa (ih7 _ (by omega))
          · simp
        · -- openSquareTok
          rename_i heq
          have hlt : pos < ts.length := lt_of_tokAt_ne_eof (by simp [heq])
          have hbc := le_consumeBracketContents ts (pos + 1)
          split
          · exact ih1 _ _ _ (by omega)
          · simp
        · simp
    · -- consumeSimpleSelector
      intro pos hb
      rw [consumeSimpleSelector]
      exact ih1 _ _ _ (by omega)
    · -- consumeComplexSelectorLoop
      intro pos acc hb
      rw [consumeComplexSelectorLoop]
      try dsimp only
      have hsp := le_skipWhitespace ts pos
      split
      · rename_i hcomb
        have hlt : skipWhitespace ts pos < ts.length := by
          refine lt_of_tokAt_ne_eof (fun hc => ?_)
          rw [hc] at hcomb
          simp [Token.isClauseCombinator] at hcomb
        have hsw2 := le_skipWhitespace ts (skipWhitespace ts pos + 1)
        split
        · rename_i s p2 hss
          have hp2 := progress_simpleSelector hss
          exact ih3 _ _ (by omega)
        · simp
        · rename_i hss
          exact absurd hss (ih2 _ (by omega))
      · split
        · simp
        · rename_i hcomb hend
          have hlt : skipWhitespace ts pos < ts.length := by
            refine lt_of_tokAt_ne_eof (fun hc => ?_)
            rw [hc] at hend
            simp [Token.isSelectorClauseEnd, Token.isEOF] at hend
          split
          · rename_i s p2 hss
            have hp2 := progress_simpleSelector hss
            exact ih3 _ _ (by omega)
          · simp
          · rename_i hss
            exact absurd hss (ih2 _ (by omega))
    · -- consumeComplexSelector
      intro pos hb
      rw [consumeComplexSelector]
      try dsimp only
      have hsp := le_skipWhitespace ts pos
      split
      · rename_i s p1 hss
        have hp1 := progress_simpleSelector hss
        exact ih3 _ _ (by omega)
      · simp
      · rename_i hss
        exact absurd hss (ih2 _ (by omega))
    · -- consumeArgument
      intro pos hb
      rw [consumeArgument]
      try dsimp only
      have hsp := le_skipWhitespace ts pos
      split
      · simp
      · simp
      · split
        · simp
        · simp
        · rename_i hcc
          exact absurd hcc (ih4 _ (by omega))
    · -- consumeFunctionArgumentsLoop
      intro pos acc hb
      rw [consumeFunctionArgumentsLoop]
      try dsimp only
      have hsp := le_skipWhitespace ts pos
      split
      · rename_i hcomma
        have hlt : skipWhitespace ts pos < ts.length := by
          refine lt_of_tokAt_ne_eof (fun hc => ?_)
          rw [hc] at hcomma
          simp [Token.isComma] at hcomma
        split
        · rename_i a p2 harg
          have hp2 := progress_argument harg
          exact ih6 _ _ (by omega)
        · simp
        · rename_i harg
          exact absurd harg (ih5 _ (by omega))
      · simp
    · -- consumeFunctionArguments
      intro pos hb
      rw [consumeFunctionArguments]
      split
      · rename_i a p1 harg
        have hp1 := progress_argument harg
        exact ih6 _ _ (by omega)
      · simp
      · rename_i harg
        exact absurd harg (ih5 _ (by omega))

theorem parseCSSTokensR_ne_fuelOut (selector : String) (rawTokens : List Token) :
    parseCSSTokensR selector rawTokens ≠ .fuelOut := by
  rw [parseCSSTokensR]
  try dsimp only
  split
  · simp
  · split
    · split
      · split <;> simp
      · simp
    · simp
    · rename_i hfa
      refine absurd hfa ?_
      exact (parserSufficiency selector (appendEOF rawTokens)
        (parseFuel (appendEOF rawTokens))).2.2.2.2.2.2 0 (by simp [parseFuel])

/-! ## Structural invariants of parser output -/

theorem clausesGood_append (l : List CSSClause) (c : CSSClause) :
    clausesGood (l ++ [c]) = (clausesGood l && clauseGood c) := by
  induction l with
  | nil => simp [clausesGood]
  | cons x xs ihx => simp [clausesGood, ihx, Bool.and_assoc]

theorem argsGood_append (l : List CSSFunctionArgument) (a : CSSFunctionArgument) :
    argsGood (l ++ [a]) = (argsGood l && argGood a) := by
  induction l with
  | nil => simp [argsGood]
  | cons x xs ihx => simp [argsGood, ihx, Bool.and_assoc]

theorem fnsGood_append (l : List CSSFunction) (f : CSSFunction) :
    fnsGood (l ++ [f]) = (fnsGood l && fnGood f) := by
  induction l with
  | nil => simp [fnsGood]
  | cons x xs ihx => simp [fnsGood, ihx, Bool.and_assoc]

theorem clausesGood_setLastCombinator (l : List CSSClause) (comb : String) :
    clausesGood (setLastCombinator l comb) = clausesGood l := by
  match l with
  | [] => rfl
  | [CSSClause.mk s c] => simp [setLastCombinator, clausesGood, clauseGood]
  | CSSClause.mk s c :: y :: ys =>
    have ih := clausesGood_setLastCombinator (y :: ys) comb
    rw [show setLastCombinator (CSSClause.mk s c :: y :: ys) comb =
      CSSClause.mk s c :: setLastCombinator (y :: ys) comb from rfl]
    simp [clausesGood, ih]

theorem setLastCombinator_ne_nil {l : List CSSClause} (h : l ≠ []) (comb : String) :
    setLastCombinator l comb ≠ [] := by
  match l with
  | [] => exact absurd rfl h
  | [.mk s c] => simp [setLastCombinator]
  | x :: y :: ys => simp [setLastCombinator]

theorem lastCombinator_append (l : List CSSClause) (s : CSSSimpleSelector) :
    lastCombinator (l ++ [CSSClause.mk s ""]) = "" := by
  simp [lastCombinator, List.getLast?_concat, CSSClause.combinator]

theorem parserInvariant (selector : String) (ts : List Token) : ∀ fuel : Nat,
    (∀ pos raw fns v p', fnsGood fns = true →
      consumeSimpleSelectorLoop selector ts fuel pos raw fns = .ok v p' →
      simpleGood v = true ∧ (v.css = none → v.functions ≠ [])) ∧
    (∀ pos v p', consumeSimpleSelector selector ts fuel pos = .ok v p' →
      simpleGood v = true ∧ (v.css = none → v.functions ≠ [])) ∧
    (∀ pos acc v p', acc ≠ [] → lastCombinator acc = "" → clausesGood acc = true →
      consumeComplexSelectorLoop selector ts fuel pos acc = .ok v p' →
      complexGood v = true) ∧
    (∀ pos v p', consumeComplexSelector selector ts fuel pos = .ok v p' →
      complexGood v = true) ∧
    (∀ pos v p', consumeArgument selector ts fuel pos = .ok v p' → argGood v = true) ∧
    (∀ pos acc v p', argsGood acc = true →
      consumeFunctionArgumentsLoop selector ts fuel pos acc = .ok v p' →
      argsGood v = true) ∧
    (∀ pos v p', consumeFunctionArguments selector ts fuel pos = .ok v p' →
      argsGood v = true) := by
  intro fuel
  induction fuel with
  | zero =>
    refine ⟨fun pos raw fns v p' hfns h => ?_, fun pos v p' h => ?_,
      fun pos acc v p' hne hlast hgood h => ?_, fun pos v p' h => ?_, fun pos v p' h => ?_,
      fun pos acc v p' hacc h => ?_, fun pos v p' h => ?_⟩ <;>
    simp [consumeSimpleSelectorLoop, consumeSimpleSelector, consumeComplexSelectorLoop,
      consumeComplexSelector, consumeArgument, consumeFunctionArgumentsLoop,
      consumeFunctionArguments] at h
  | succ f ih =>
    obtain ⟨ih1, ih2, ih3, ih4, ih5, ih6, ih7⟩ := ih
    refine ⟨?_, ?_, ?_, ?_, ?_, ?_, ?_⟩
    · -- consumeSimpleSelectorLoop
      intro pos raw fns v p' hfns h
      rw [consumeSimpleSelectorLoop] at h
      try dsimp only at h
      split at h
      · split at h
        · cases h
        · rename_i hne
          cases h
          refine ⟨by simpa [simpleGood] using hfns, fun hcss => ?_⟩
          simp only [CSSSimpleSelector.css] at hcss
          simp only [CSSSimpleSelector.functions]
          by_cases hraw : raw = ""
          · simp [hraw] at hne
            intro hfn
            subst hfn
            simp at hne
          · simp [hraw] at hcss
      · split at h
        · exact ih1 _ _ _ _ _ hfns h
        · exact ih1 _ _ _ _ _ hfns h
        · split at h
          · exact ih1 _ _ _ _ _ hfns h
          · split at h
            · split at h
              · exact ih1 _ _ _ _ _ hfns h
              · cases h
            · cases h
        · split at h
          · split at h
            · exact ih1 _ _ _ _ _ hfns h
            · refine ih1 _ _ _ _ _ ?_ h
              simp [fnsGood_append, hfns, fnGood, argsGood]
          · split at h
            · split at h
              · exact ih1 _ _ _ _ _ hfns h
              · cases h
            · split at h
              · rename_i args p2 hfa
                split at h
                · refine ih1 _ _ _ _ _ ?_ h
                  simp [fnsGood_append, hfns, fnGood]
                  exact ih7 _ _ _ hfa
                · cases h
              · cases h
              · cases h
          · cases h
        · split at h
          · exact ih1 _ _ _ _ _ hfns h
          · cases h
        · cases h
    · -- consumeSimpleSelector
      intro pos v p' h
      rw [consumeSimpleSelector] at h
      exact ih1 pos "" [] v p' rfl h
    · -- consumeComplexSelectorLoop
      intro pos acc v p' hne hlast hgood h
      rw [consumeComplexSelectorLoop] at h
      try dsimp only at h
      split at h
      · split at h
        · rename_i s p2 hss
          refine ih3 _ _ _ _ (by simp) (lastCombinator_append _ _) ?_ h
          rw [clausesGood_append, clausesGood_setLastCombinator, hgood]
          simpa [clauseGood] using (ih2 _ _ _ hss).1
        · cases h
        · cases h
      · split at h
        · cases h
          simp [complexGood, CSSComplexSelector.simple, hlast, hgood, hne]
        · split at h
          · rename_i s p2 hss
            refine ih3 _ _ _ _ (by simp) (lastCombinator_append _ _) ?_ h
            rw [clausesGood_append, hgood]
            simpa [clauseGood] using (ih2 _ _ _ hss).1
          · cases h
          · cases h
    · -- consumeComplexSelector
      intro pos v p' h
      rw [consumeComplexSelector] at h
      try dsimp only at h
      split at h
      · rename_i s p1 hss
        refine ih3 _ _ _ _ (by simp) (lastCombinator_append [] _) ?_ h
        simpa [clausesGood, clauseGood] using (ih2 _ _ _ hss).1
      · cases h
      · cases h
    · -- consumeArgument
      intro pos v p' h
      rw [consumeArgument] at h
      try dsimp only at h
      split at h
      · cases h; rfl
      · cases h; rfl
      · split at h
        · rename_i c p2 hcc
          cases h
          simpa [argGood] using ih4 _ _ _ hcc
        · cases h
        · cases h
    · -- consumeFunctionArgumentsLoop
      intro pos acc v p' hacc h
      rw [consumeFunctionArgumentsLoop] at h
      try dsimp only at h
      split at h
      · split at h
        · rename_i a p2 harg
          refine ih6 _ _ _ _ ?_ h
          rw [argsGood_append, hacc]
          simpa using ih5 _ _ _ harg
        · cases h
        · cases h
      · cases h
        exact hacc
    · -- consumeFunctionArguments
      intro pos v p' h
      rw [consumeFunctionArguments] at h
      split at h
      · rename_i a p1 harg
        refine ih6 _ _ _ _ ?_ h
        simpa [argsGood] using ih5 _ _ _ harg
      · cases h
      · cases h

/-! ## Lemmas for whitespace-only inputs and the unsupported-token guard -/

theorem skipWhitespace_eq_self {ts : List Token} {pos : Nat}
    (h : (tokAt ts pos).isWhitespace = false) : skipWhitespace ts pos = pos := by
  rw [skipWhitespace]
  cases hn : ts.length - pos with
  | zero => rfl
  | succ m =>
    rw [skipWhitespaceAux]
    simp [h]

theorem skipWhitespace_allWs (l : List Token) (h : ∀ t ∈ l, t.isWhitespace = true) :
    skipWhitespace (l ++ [Token.eofTok]) 0 = l.length := by
  induction l with
  | nil =>
    apply skipWhitespace_eq_self
    simp [tokAt, Token.isWhitespace]
  | cons t rest ihr =>
    have hshape : ((t :: rest) ++ [Token.eofTok]).length - 0 = (rest.length + 1) + 1 := by
      simp
    rw [skipWhitespace, hshape, skipWhitespaceAux]
    have hget : tokAt ((t :: rest) ++ [Token.eofTok]) 0 = t := rfl
    rw [hget, h t (by simp)]
    simp only [if_true]
    have hcons : (t :: rest) ++ [Token.eofTok] = t :: (rest ++ [Token.eofTok]) := rfl
    have haux : skipWhitespaceAux ((t :: rest) ++ [Token.eofTok]) (rest.length + 1) (0 + 1) =
        skipWhitespaceAux (rest ++ [Token.eofTok]) (rest.length + 1) 0 + 1 := by
      rw [hcons]
      exact skipWhitespaceAux_cons t (rest ++ [Token.eofTok]) (rest.length + 1) 0
    rw [haux]
    have hlen : rest.length + 1 = (rest ++ [Token.eofTok]).length - 0 := by simp
    rw [hlen]
    rw [show skipWhitespaceAux (rest ++ [Token.eofTok]) ((rest ++ [Token.eofTok]).length - 0) 0 =
      skipWhitespace (rest ++ [Token.eofTok]) 0 from rfl]
    rw [ihr (fun x hx => h x (by simp [hx]))]
    simp

theorem tokAt_concat_length (l : List Token) (t : Token) :
    tokAt (l ++ [t]) l.length = t := by
  simp [tokAt, List.getD_eq_getElem?_getD, List.getElem?_concat_length]

theorem appendEOF_of_allWs {l : List Token} (h : ∀ t ∈ l, t.isWhitespace = true) :
    appendEOF l = l ++ [Token.eofTok] := by
  rw [appendEOF]
  split
  · rename_i hlast
    have hmem : Token.eofTok ∈ l := by
      obtain ⟨hne, heq⟩ := List.mem_getLast?_eq_getLast (l := l) (x := Token.eofTok)
        (by simp [hlast])
      rw [heq]
      exact List.getLast_mem hne
    have := h _ hmem
    simp [Token.isWhitespace] at this
  · rfl

/-- For whitespace-only token lists the outer argument-list consumption
fails at the end-of-input token with an empty-selector error. -/
theorem allWs_fa_err (selector : String) (rawTokens : List Token)
    (h : ∀ t ∈ rawTokens, t.isWhitespace = true) (f : Nat) :
    consumeFunctionArguments selector (rawTokens ++ [Token.eofTok]) (f + 5) 0 =
      .err (unexpectedMsg selector (rawTokens ++ [Token.eofTok]) rawTokens.length) := by
  have hskip : skipWhitespace (rawTokens ++ [Token.eofTok]) 0 = rawTokens.length :=
    skipWhitespace_allWs rawTokens h
  have htok : tokAt (rawTokens ++ [Token.eofTok]) rawTokens.length = Token.eofTok :=
    tokAt_concat_length rawTokens Token.eofTok
  have hskip2 : skipWhitespace (rawTokens ++ [Token.eofTok]) rawTokens.length =
      rawTokens.length :=
    skipWhitespace_eq_self (by rw [htok]; rfl)
  rw [consumeFunctionArguments, consumeArgument]
  try dsimp only
  rw [hskip, htok]
  try dsimp only
  rw [consumeComplexSelector]
  try dsimp only
  rw [hskip2, consumeSimpleSelector, consumeSimpleSelectorLoop]
  try dsimp only
  rw [htok]
  rfl

theorem argsGood_mem {l : List CSSFunctionArgument} {a : CSSFunctionArgument}
    (hl : argsGood l = true) (ha : a ∈ l) : argGood a = true := by
  induction l with
  | nil => cases ha
  | cons x xs ihx =>
    simp only [argsGood, Bool.and_eq_true] at hl
    rcases List.mem_cons.mp ha with rfl | hmem
    · exact hl.1
    · exact ihx hl.2 hmem

/-! ## The claims -/

/-- Claim C1: the round-trip property fails on the code for string
arguments containing a double quote, because `serializeSelector` wraps
strings in double quotes without escaping.  The selector
`:has-text("a\"b")` parses to the argument list `[str "a\"b"]`; that list
serializes to the five-character fragment `"a"b"`, which re-tokenizes as a
string, an identifier and an unterminated string, so re-parsing it as a
function-argument list fails and cannot return the original list. -/
theorem claim_C1_roundTrip :
    parseCSS ":has-text(\"a\\\"b\")" =
      .ok [CSSComplexSelector.mk [CSSClause.mk
        (CSSSimpleSelector.mk none [CSSFunction.mk "has-text"
          [CSSFunctionArgument.str "a\"b"]]) ""]] ∧
    serializeSelector [CSSFunctionArgument.str "a\"b"] = "\"a\"b\"" ∧
    reparseFunctionArguments (serializeSelector [CSSFunctionArgument.str "a\"b"]) =
      .error (topLevelErrMsg "\"a\"b\"") ∧
    ∀ args, reparseFunctionArguments (serializeSelector [CSSFunctionArgument.str "a\"b"]) ≠
      .ok args := by
  refine ⟨by rfl, by rfl, by rfl, fun args h => ?_⟩
  have h' : (Except.error (topLevelErrMsg "\"a\"b\"") :
      Except String (List CSSFunctionArgument)) = .ok args := h
  cases h'

/-- Claim C5: any token sequence containing a token of a rejected kind
makes the parser fail before structural parsing, with the unsupported-token
error for the first such token; the message quotes that token's source text
and the whole selector string, and no structural parse error is raised. -/
theorem claim_C5_unsupported (selector : String) (rawTokens : List Token)
    (h : ∃ t ∈ rawTokens, t.isUnsupported = true) :
    ∃ t, (appendEOF rawTokens).find? Token.isUnsupported = some t ∧
      t.isUnsupported = true ∧
      parseCSSTokens selector rawTokens =
        .error ("Unsupported token \"" ++ t.toSource ++
          "\" while parsing selector \"" ++ selector ++ "\"") := by
  obtain ⟨t0, hmem, huns⟩ := h
  have hmem' : t0 ∈ appendEOF rawTokens := by
    rw [appendEOF]
    split
    · exact hmem
    · exact List.mem_append_left _ hmem
  have hsome : ((appendEOF rawTokens).find? Token.isUnsupported).isSome := by
    rw [List.find?_isSome]
    exact ⟨t0, hmem', huns⟩
  obtain ⟨t, ht⟩ := Option.isSome_iff_exists.mp hsome
  refine ⟨t, ht, List.find?_some ht, ?_⟩
  rw [parseCSSTokens, parseCSSTokensR]
  try dsimp only
  rw [ht]
  rfl

/-- Witness for C5: a lone semicolon token is rejected as unsupported. -/
theorem claim_C5_unsupported_witness :
    ∃ t, (appendEOF [Token.semiTok]).find? Token.isUnsupported = some t ∧
      t.isUnsupported = true ∧
      parseCSSTokens ";" [Token.semiTok] =
        .error ("Unsupported token \"" ++ t.toSource ++
          "\" while parsing selector \"" ++ ";" ++ "\"") :=
  claim_C5_unsupported ";" [Token.semiTok] ⟨Token.semiTok, by simp, rfl⟩

/-- Claim C6: an input consisting solely of whitespace tokens (including
the empty input) fails with a parse error at the end-of-input token instead
of producing an empty tree; and in general `consumeSimpleSelector` never
returns a simple selector with neither raw CSS text nor functions. -/
theorem claim_C6_emptyInput (selector : String) (rawTokens : List Token)
    (h : ∀ t ∈ rawTokens, t.isWhitespace = true) :
    parseCSSTokens selector rawTokens =
      .error (unexpectedMsg selector (rawTokens ++ [Token.eofTok]) rawTokens.length) ∧
    (∀ ts fuel pos v p', consumeSimpleSelector selector ts fuel pos = .ok v p' →
      ¬(v.css = none ∧ v.functions = [])) := by
  constructor
  · have happ := appendEOF_of_allWs h
    have hguard : (rawTokens ++ [Token.eofTok]).find? Token.isUnsupported = none := by
      rw [List.find?_eq_none]
      intro x hx
      rcases List.mem_append.mp hx with hx | hx
      · have hw := h x hx
        cases x <;> simp_all [Token.isWhitespace, Token.isUnsupported]
      · simp only [List.mem_singleton] at hx
        subst hx
        simp [Token.isUnsupported]
    have hfuel : parseFuel (rawTokens ++ [Token.eofTok]) =
        (5 * rawTokens.length + 6) + 5 := by
      simp [parseFuel]
      omega
    rw [parseCSSTokens, parseCSSTokensR]
    try dsimp only
    rw [happ, hguard]
    try dsimp only
    rw [hfuel, allWs_fa_err selector rawTokens h]
  · intro ts fuel pos v p' hss
    rintro ⟨hcss, hfn⟩
    exact ((parserInvariant selector ts fuel).2.1 _ _ _ hss).2 hcss hfn

/-- Witness for C6: a single whitespace token (the tokenization of a
blank selector string) is rejected with the parse error at end-of-input. -/
theorem claim_C6_emptyInput_witness :
    (parseCSSTokens " " [Token.wsTok " "] =
      .error (unexpectedMsg " " ([Token.wsTok " "] ++ [Token.eofTok])
        [Token.wsTok " "].length) ∧
    (∀ ts fuel pos v p', consumeSimpleSelector " " ts fuel pos = .ok v p' →
      ¬(v.css = none ∧ v.functions = []))) :=
  claim_C6_emptyInput " " [Token.wsTok " "]
    (by intro t ht; simp only [List.mem_singleton] at ht; subst ht; rfl)

/-- Claim C8: the parser terminates on every finite token sequence (the
fuel budget `parseFuel` is never exhausted), and the unterminated
constructs `[attr`, `:fn(` and the trailing combinator `div >` fail with a
parse error issued at the end-of-input token (whose source text is the
empty string), rather than looping or reading past the end. -/
theorem claim_C8_termination :
    (∀ (selector : String) (rawTokens : List Token),
      parseCSSTokensR selector rawTokens ≠ .fuelOut) ∧
    parseCSS "[attr" = .error ("Unexpected token \"\" while parsing selector \"[attr\"") ∧
    parseCSS ":fn(" = .error ("Unexpected token \"\" while parsing selector \":fn(\"") ∧
    parseCSS "div >" = .error ("Unexpected token \"\" while parsing selector \"div >\"") :=
  ⟨parseCSSTokensR_ne_fuelOut, by rfl, by rfl, by rfl⟩

/-- Claim C2: when the guard passes and the outer function-argument list
consumption succeeds, `parseCSS` succeeds exactly when the cursor is at the
end-of-input token and every top-level argument is structurally a complex
selector; otherwise (top level resolving to a bare number or string, or
trailing tokens after a complete parse) it fails with the generic parse
error quoting the whole input string. -/
theorem claim_C2_topLevel (selector : String) (rawTokens : List Token)
    (args : List CSSFunctionArgument) (p : Nat)
    (hguard : (appendEOF rawTokens).find? Token.isUnsupported = none)
    (hfa : consumeFunctionArguments selector (appendEOF rawTokens)
      (parseFuel (appendEOF rawTokens)) 0 = .ok args p) :
    (parseCSSTokens selector rawTokens =
        .ok (args.filterMap CSSFunctionArgument.getSel) ↔
      ((tokAt (appendEOF rawTokens) p).isEOF = true ∧
        args.all CSSFunctionArgument.isSel = true)) ∧
    (((tokAt (appendEOF rawTokens) p).isEOF = false ∨
        args.all CSSFunctionArgument.isSel = false) →
      parseCSSTokens selector rawTokens =
        .error ("Error while parsing selector \"" ++ selector ++ "\"")) := by
  rw [parseCSSTokens, parseCSSTokensR]
  try dsimp only
  rw [hguard]
  try dsimp only
  rw [hfa]
  try dsimp only
  by_cases h1 : (tokAt (appendEOF rawTokens) p).isEOF = true
  · by_cases h2 : args.all CSSFunctionArgument.isSel = true
    · simp [h1, h2, topLevelErrMsg]
    · simp [h1, h2, topLevelErrMsg]
  · simp [h1, topLevelErrMsg]

/-- Witness for C2 at the bare-number token sequence for the selector
string "5": the top level resolves to a number, so parsing fails with the
generic error. -/
theorem claim_C2_topLevel_witness :
    (parseCSSTokens "5" [Token.numberTok 5 "5"] =
        .ok ([CSSFunctionArgument.num 5].filterMap CSSFunctionArgument.getSel) ↔
      ((tokAt (appendEOF [Token.numberTok 5 "5"]) 1).isEOF = true ∧
        [CSSFunctionArgument.num 5].all CSSFunctionArgument.isSel = true)) ∧
    (((tokAt (appendEOF [Token.numberTok 5 "5"]) 1).isEOF = false ∨
        [CSSFunctionArgument.num 5].all CSSFunctionArgument.isSel = false) →
      parseCSSTokens "5" [Token.numberTok 5 "5"] =
        .error ("Error while parsing selector \"" ++ "5" ++ "\"")) :=
  claim_C2_topLevel "5" [Token.numberTok 5 "5"] [CSSFunctionArgument.num 5] 1 rfl rfl

/-- Claim C3: a `:name(` construct whose name is in the built-in
pseudo-function table captures the entire argument text up to (but not
including) the matching close-parenthesis as an opaque verbatim string,
appended to the raw CSS text as `:name(<raw-args>)`, with no structural
parsing and no engine function recorded; in particular
`parse(":nth-child(2n+1)")` yields one simple selector with raw text
":nth-child(2n+1)" and an empty function list. -/
theorem claim_C3_builtinFunction :
    (∀ (selector : String) (ts : List Token) (fuel pos : Nat) (raw : String)
      (fns : List CSSFunction) (fname : String),
      tokAt ts pos = Token.colonTok →
      tokAt ts (pos + 1) = Token.functionTok fname →
      builtinCSSFunctions.contains fname = true →
      consumeSimpleSelectorLoop selector ts (fuel + 1) pos raw fns =
        (if (tokAt ts (skipWhitespace ts
              (consumeBuiltinFunctionArguments ts (pos + 2)).2)).isCloseParen then
          consumeSimpleSelectorLoop selector ts fuel
            (skipWhitespace ts (consumeBuiltinFunctionArguments ts (pos + 2)).2 + 1)
            (raw ++ ":" ++ fname ++ "(" ++
              (consumeBuiltinFunctionArguments ts (pos + 2)).1 ++ ")") fns
        else .err (unexpectedMsg selector ts
          (skipWhitespace ts (consumeBuiltinFunctionArguments ts (pos + 2)).2)))) ∧
    parseCSS ":nth-child(2n+1)" =
      .ok [CSSComplexSelector.mk [CSSClause.mk
        (CSSSimpleSelector.mk (some ":nth-child(2n+1)") []) ""]] := by
  constructor
  · intro selector ts fuel pos raw fns fname h1 h2 h3
    rw [consumeSimpleSelectorLoop]
    rw [h1, h2]
    simp only [Token.isSelectorClauseEnd, Token.isComma, Token.isCloseParen, Token.isEOF,
      Token.isClauseCombinator, Token.isWhitespace, Bool.or_self, Bool.or_false,
      Bool.false_or, h3, if_true]
    rfl
  · rfl

/-- Witness for C3 at the token sequence of ":dir(x)": the built-in
function branch of the simple-selector loop fires. -/
theorem claim_C3_builtinFunction_witness :
    consumeSimpleSelectorLoop ":dir(x)"
        [Token.colonTok, Token.functionTok "dir", Token.identTok "x",
         Token.closeParenTok, Token.eofTok] (5 + 1) 0 "" [] =
      (if (tokAt [Token.colonTok, Token.functionTok "dir", Token.identTok "x",
              Token.closeParenTok, Token.eofTok]
            (skipWhitespace [Token.colonTok, Token.functionTok "dir", Token.identTok "x",
              Token.closeParenTok, Token.eofTok]
              (consumeBuiltinFunctionArguments [Token.colonTok, Token.functionTok "dir",
                Token.identTok "x", Token.closeParenTok, Token.eofTok] (0 + 2)).2)).isCloseParen then
        consumeSimpleSelectorLoop ":dir(x)"
          [Token.colonTok, Token.functionTok "dir", Token.identTok "x",
           Token.closeParenTok, Token.eofTok] 5
          (skipWhitespace [Token.colonTok, Token.functionTok "dir", Token.identTok "x",
              Token.closeParenTok, Token.eofTok]
            (consumeBuiltinFunctionArguments [Token.colonTok, Token.functionTok "dir",
              Token.identTok "x", Token.closeParenTok, Token.eofTok] (0 + 2)).2 + 1)
          ("" ++ ":" ++ "dir" ++ "(" ++
            (consumeBuiltinFunctionArguments [Token.colonTok, Token.functionTok "dir",
              Token.identTok "x", Token.closeParenTok, Token.eofTok] (0 + 2)).1 ++ ")") []
      else .err (unexpectedMsg ":dir(x)"
        [Token.colonTok, Token.functionTok "dir", Token.identTok "x",
         Token.closeParenTok, Token.eofTok]
        (skipWhitespace [Token.colonTok, Token.functionTok "dir", Token.identTok "x",
            Token.closeParenTok, Token.eofTok]
          (consumeBuiltinFunctionArguments [Token.colonTok, Token.functionTok "dir",
            Token.identTok "x", Token.closeParenTok, Token.eofTok] (0 + 2)).2))) :=
  claim_C3_builtinFunction.1 ":dir(x)"
    [Token.colonTok, Token.functionTok "dir", Token.identTok "x",
     Token.closeParenTok, Token.eofTok] 5 0 "" [] "dir" rfl rfl rfl

/-- Claim C4: argument disambiguation in `consumeArgument` — after skipping
whitespace, a number token is consumed as a numeric literal, a string token
as a string literal, and anything else triggers a full complex-selector
parse; consequently `:has-text("foo")` records a string argument, not a
complex selector. -/
theorem claim_C4_argument :
    (∀ (selector : String) (ts : List Token) (fuel pos : Nat),
      (∀ n s, tokAt ts (skipWhitespace ts pos) = Token.numberTok n s →
        consumeArgument selector ts (fuel + 1) pos =
          .ok (.num n) (skipWhitespace ts pos + 1)) ∧
      (∀ s, tokAt ts (skipWhitespace ts pos) = Token.stringTok s →
        consumeArgument selector ts (fuel + 1) pos =
          .ok (.str s) (skipWhitespace ts pos + 1)) ∧
      ((∀ n s, tokAt ts (skipWhitespace ts pos) ≠ Token.numberTok n s) →
       (∀ s, tokAt ts (skipWhitespace ts pos) ≠ Token.stringTok s) →
        consumeArgument selector ts (fuel + 1) pos =
          (match consumeComplexSelector selector ts fuel (skipWhitespace ts pos) with
           | .ok c p2 => .ok (.sel c) p2
           | .err m => .err m
           | .fuelOut => .fuelOut))) ∧
    parseCSS ":has-text(\"foo\")" =
      .ok [CSSComplexSelector.mk [CSSClause.mk
        (CSSSimpleSelector.mk none [CSSFunction.mk "has-text"
          [CSSFunctionArgument.str "foo"]]) ""]] := by
  refine ⟨fun selector ts fuel pos => ⟨?_, ?_, ?_⟩, by rfl⟩
  · intro n s htok
    rw [consumeArgument]
    try dsimp only
    rw [htok]
  · intro s htok
    rw [consumeArgument]
    try dsimp only
    rw [htok]
  · intro hnum hstr
    rw [consumeArgument]
    try dsimp only
    cases htok : tokAt ts (skipWhitespace ts pos) <;>
      first
        | exact absurd htok (hnum _ _)
        | exact absurd htok (hstr _)
        | rfl

/-- Witness for C4: a lone number token is consumed as a numeric literal
argument. -/
theorem claim_C4_argument_witness :
    consumeArgument "7" [Token.numberTok 7 "7", Token.eofTok] (3 + 1) 0 =
      .ok (.num 7) (skipWhitespace [Token.numberTok 7 "7", Token.eofTok] 0 + 1) :=
  (claim_C4_argument.1 "7" [Token.numberTok 7 "7", Token.eofTok] 3 0).1 7 "7" rfl

/-- Claim C7: every complex selector contained in a successfully parsed
selector list — including complex selectors nested as custom-function
arguments, via the recursive check `complexGood` — has a non-empty
simple-selector sequence whose last element carries the empty combinator. -/
theorem claim_C7_invariant (selector : String) (rawTokens : List Token)
    (res : CSSSelectorList) (hok : parseCSSTokens selector rawTokens = .ok res) :
    ∀ c ∈ res, complexGood c = true := by
  intro c hc
  rw [parseCSSTokens] at hok
  split at hok
  · rename_i v p hR
    cases hok
    rw [parseCSSTokensR] at hR
    try dsimp only at hR
    split at hR
    · cases hR
    · split at hR
      · rename_i args p2 hfa
        split at hR
        · split at hR
          · cases hR
            have hgood := (parserInvariant selector _ _).2.2.2.2.2.2 _ _ _ hfa
            obtain ⟨a, hamem, hget⟩ := List.mem_filterMap.mp hc
            cases a with
            | num n => simp [CSSFunctionArgument.getSel] at hget
            | str s => simp [CSSFunctionArgument.getSel] at hget
            | sel c2 =>
              have hcc : c2 = c := by
                simpa [CSSFunctionArgument.getSel] using hget
              subst hcc
              simpa [argGood] using argsGood_mem hgood hamem
          · cases hR
        · cases hR
      · cases hR
      · cases hR
  · cases hok
  · cases hok

/-- Witness for C7 at the parse of the token sequence for "div". -/
theorem claim_C7_invariant_witness :
    complexGood (CSSComplexSelector.mk [CSSClause.mk
      (CSSSimpleSelector.mk (some "div") []) ""]) = true :=
  claim_C7_invariant "div" [Token.identTok "div"]
    [CSSComplexSelector.mk [CSSClause.mk (CSSSimpleSelector.mk (some "div") []) ""]] rfl
    (CSSComplexSelector.mk [CSSClause.mk (CSSSimpleSelector.mk (some "div") []) ""])
    (by simp)

/-- Claim C9: a combinator delimiter after a simple selector is written
into the combinator slot of the last accumulated clause (the preceding
simple selector) and another simple selector is then required; parsing
"div > span" yields one complex selector with clauses
(div, ">") and (span, ""). -/
theorem claim_C9_combinator :
    (∀ (l : List CSSClause) (s : CSSSimpleSelector) (c comb : String),
      setLastCombinator (l ++ [CSSClause.mk s c]) comb = l ++ [CSSClause.mk s comb]) ∧
    (∀ (selector : String) (ts : List Token) (fuel pos : Nat) (acc : List CSSClause),
      (tokAt ts (skipWhitespace ts pos)).isClauseCombinator = true →
      consumeComplexSelectorLoop selector ts (fuel + 1) pos acc =
        (match consumeSimpleSelector selector ts fuel
            (skipWhitespace ts (skipWhitespace ts pos + 1)) with
         | .ok s p2 => consumeComplexSelectorLoop selector ts fuel p2
             (setLastCombinator acc (tokAt ts (skipWhitespace ts pos)).toSource ++
               [CSSClause.mk s ""])
         | .err m => .err m
         | .fuelOut => .fuelOut)) ∧
    parseCSS "div > span" =
      .ok [CSSComplexSelector.mk
        [CSSClause.mk (CSSSimpleSelector.mk (some "div") []) ">",
         CSSClause.mk (CSSSimpleSelector.mk (some "span") []) ""]] := by
  refine ⟨?_, ?_, by rfl⟩
  · intro l s c comb
    induction l with
    | nil => rfl
    | cons x xs ihx =>
      cases x with
      | mk s2 c2 =>
        cases xs with
        | nil => rfl
        | cons y ys =>
          rw [show setLastCombinator ((CSSClause.mk s2 c2 :: y :: ys) ++
              [CSSClause.mk s c]) comb =
            CSSClause.mk s2 c2 :: setLastCombinator ((y :: ys) ++
              [CSSClause.mk s c]) comb from rfl]
          rw [ihx]
          rfl
  · intro selector ts fuel pos acc hcomb
    rw [consumeComplexSelectorLoop]
    try dsimp only
    rw [hcomb]
    rfl

/-- Witness for C9 at the token sequence of "div > span", mid-parse: the
combinator branch of the complex-selector loop fires at the ">" token. -/
theorem claim_C9_combinator_witness :
    consumeComplexSelectorLoop "div > span"
        [Token.identTok "div", Token.wsTok " ", Token.delimTok '>', Token.wsTok " ",
         Token.identTok "span", Token.eofTok] (7 + 1) 1
        [CSSClause.mk (CSSSimpleSelector.mk (some "div") []) ""] =
      (match consumeSimpleSelector "div > span"
          [Token.identTok "div", Token.wsTok " ", Token.delimTok '>', Token.wsTok " ",
           Token.identTok "span", Token.eofTok] 7
          (skipWhitespace [Token.identTok "div", Token.wsTok " ", Token.delimTok '>',
              Token.wsTok " ", Token.identTok "span", Token.eofTok]
            (skipWhitespace [Token.identTok "div", Token.wsTok " ", Token.delimTok '>',
              Token.wsTok " ", Token.identTok "span", Token.eofTok] 1 + 1)) with
       | .ok s p2 => consumeComplexSelectorLoop "div > span"
           [Token.identTok "div", Token.wsTok " ", Token.delimTok '>', Token.wsTok " ",
            Token.identTok "span", Token.eofTok] 7 p2
           (setLastCombinator [CSSClause.mk (CSSSimpleSelector.mk (some "div") []) ""]
             (tokAt [Token.identTok "div", Token.wsTok " ", Token.delimTok '>',
                Token.wsTok " ", Token.identTok "span", Token.eofTok]
               (skipWhitespace [Token.identTok "div", Token.wsTok " ", Token.delimTok '>',
                 Token.wsTok " ", Token.identTok "span", Token.eofTok] 1)).toSource ++
             [CSSClause.mk s ""])
       | .err m => .err m
       | .fuelOut => .fuelOut) :=
  claim_C9_combinator.2.1 "div > span"
    [Token.identTok "div", Token.wsTok " ", Token.delimTok '>', Token.wsTok " ",
     Token.identTok "span", Token.eofTok] 7 1
    [CSSClause.mk (CSSSimpleSelector.mk (some "div") []) ""] rfl

/-- One step of the simple-selector loop at `:name` for a custom name:
a zero-argument engine function is recorded (cssParser.ts line 169). -/
theorem simpleLoop_colon_ident_custom (selector : String) (ts : List Token)
    (fuel pos : Nat) (raw : String) (fns : List CSSFunction) (v : String)
    (h1 : tokAt ts pos = Token.colonTok) (h2 : tokAt ts (pos + 1) = Token.identTok v)
    (h3 : builtinCSSFilters.contains v = false) :
    consumeSimpleSelectorLoop selector ts (fuel + 1) pos raw fns =
      consumeSimpleSelectorLoop selector ts fuel (pos + 2) raw
        (fns ++ [CSSFunction.mk v []]) := by
  rw [consumeSimpleSelectorLoop, h1, h2]
  simp only [Token.isSelectorClauseEnd, Token.isComma, Token.isCloseParen, Token.isEOF,
    Token.isClauseCombinator, Token.isWhitespace, Bool.or_self, Bool.or_false,
    Bool.false_or, h3, Bool.false_eq_true, if_false]

/-- One step of the simple-selector loop at `:name(` for a custom name:
the argument list is parsed structurally (cssParser.ts line 175). -/
theorem simpleLoop_colon_function_custom (selector : String) (ts : List Token)
    (fuel pos : Nat) (raw : String) (fns : List CSSFunction) (fname : String)
    (h1 : tokAt ts pos = Token.colonTok)
    (h2 : tokAt ts (pos + 1) = Token.functionTok fname)
    (h3 : builtinCSSFunctions.contains fname = false) :
    consumeSimpleSelectorLoop selector ts (fuel + 1) pos raw fns =
      (match consumeFunctionArguments selector ts fuel (pos + 2) with
       | .ok args p2 =>
         if (tokAt ts (skipWhitespace ts p2)).isCloseParen then
           consumeSimpleSelectorLoop selector ts fuel (skipWhitespace ts p2 + 1) raw
             (fns ++ [CSSFunction.mk fname args])
         else .err (unexpectedMsg selector ts (skipWhitespace ts p2))
       | .err m => .err m
       | .fuelOut => .fuelOut) := by
  rw [consumeSimpleSelectorLoop, h1, h2]
  simp only [Token.isSelectorClauseEnd, Token.isComma, Token.isCloseParen, Token.isEOF,
    Token.isClauseCombinator, Token.isWhitespace, Bool.or_self, Bool.or_false,
    Bool.false_or, h3, Bool.false_eq_true, if_false]

set_option maxHeartbeats 1000000 in
/-- Claim C10: for a custom (non-built-in) name, the bare form `:name`
yields a zero-argument engine function, whereas `:name()` with empty
parentheses is a parse error, since a function-argument list must contain
at least one argument and an argument cannot be empty. -/
theorem claim_C10_bareVsEmptyParens (selector : String) (fname : String)
    (hfilter : builtinCSSFilters.contains fname = false)
    (hfn : builtinCSSFunctions.contains fname = false) :
    parseCSSTokens selector [Token.colonTok, Token.identTok fname] =
      .ok [CSSComplexSelector.mk [CSSClause.mk
        (CSSSimpleSelector.mk none [CSSFunction.mk fname []]) ""]] ∧
    parseCSSTokens selector [Token.colonTok, Token.functionTok fname, Token.closeParenTok] =
      .error (unexpectedMsg selector
        [Token.colonTok, Token.functionTok fname, Token.closeParenTok, Token.eofTok] 2) := by
  constructor
  · -- bare `:name`
    have h1 : consumeSimpleSelectorLoop selector
        [Token.colonTok, Token.identTok fname, Token.eofTok] 17 0 "" [] =
        .ok (CSSSimpleSelector.mk none [CSSFunction.mk fname []]) 2 := by
      rw [simpleLoop_colon_ident_custom selector
        [Token.colonTok, Token.identTok fname, Token.eofTok] 16 0 "" [] fname rfl rfl hfilter]
      rfl
    have h2 : consumeSimpleSelector selector
        [Token.colonTok, Token.identTok fname, Token.eofTok] 18 0 =
        .ok (CSSSimpleSelector.mk none [CSSFunction.mk fname []]) 2 := by
      rw [consumeSimpleSelector]
      exact h1
    have h3 : consumeComplexSelector selector
        [Token.colonTok, Token.identTok fname, Token.eofTok] 19 0 =
        .ok (CSSComplexSelector.mk [CSSClause.mk
          (CSSSimpleSelector.mk none [CSSFunction.mk fname []]) ""]) 2 := by
      rw [consumeComplexSelector]
      rw [show skipWhitespace [Token.colonTok, Token.identTok fname, Token.eofTok] 0 = 0
        from rfl]
      rw [h2]
      rfl
    have h4 : consumeArgument selector
        [Token.colonTok, Token.identTok fname, Token.eofTok] 20 0 =
        .ok (.sel (CSSComplexSelector.mk [CSSClause.mk
          (CSSSimpleSelector.mk none [CSSFunction.mk fname []]) ""])) 2 := by
      rw [consumeArgument]
      rw [show skipWhitespace [Token.colonTok, Token.identTok fname, Token.eofTok] 0 = 0
        from rfl]
      rw [show tokAt [Token.colonTok, Token.identTok fname, Token.eofTok] 0 = Token.colonTok
        from rfl]
      rw [h3]
    have h5 : consumeFunctionArguments selector
        [Token.colonTok, Token.identTok fname, Token.eofTok] 21 0 =
        .ok [.sel (CSSComplexSelector.mk [CSSClause.mk
          (CSSSimpleSelector.mk none [CSSFunction.mk fname []]) ""])] 2 := by
      rw [consumeFunctionArguments, h4]
      rfl
    rw [parseCSSTokens, parseCSSTokensR]
    try dsimp only
    rw [show appendEOF [Token.colonTok, Token.identTok fname] =
      [Token.colonTok, Token.identTok fname, Token.eofTok] from rfl]
    rw [show ([Token.colonTok, Token.identTok fname, Token.eofTok]).find?
      Token.isUnsupported = none from rfl]
    try dsimp only
    rw [show parseFuel [Token.colonTok, Token.identTok fname, Token.eofTok] = 21 from rfl]
    rw [h5]
    rfl
  · -- `:name()`
    have g1 : consumeFunctionArguments selector
        [Token.colonTok, Token.functionTok fname, Token.closeParenTok, Token.eofTok] 21 2 =
        .err (unexpectedMsg selector
          [Token.colonTok, Token.functionTok fname, Token.closeParenTok, Token.eofTok] 2) :=
      rfl
    have g2 : consumeSimpleSelectorLoop selector
        [Token.colonTok, Token.functionTok fname, Token.closeParenTok, Token.eofTok]
        22 0 "" [] =
        .err (unexpectedMsg selector
          [Token.colonTok, Token.functionTok fname, Token.closeParenTok, Token.eofTok] 2) := by
      rw [simpleLoop_colon_function_custom selector
        [Token.colonTok, Token.functionTok fname, Token.closeParenTok, Token.eofTok]
        21 0 "" [] fname rfl rfl hfn]
      rw [g1]
    have g3 : consumeSimpleSelector selector
        [Token.colonTok, Token.functionTok fname, Token.closeParenTok, Token.eofTok] 23 0 =
        .err (unexpectedMsg selector
          [Token.colonTok, Token.functionTok fname, Token.closeParenTok, Token.eofTok] 2) := by
      rw [consumeSimpleSelector]
      exact g2
    have g4 : consumeComplexSelector selector
        [Token.colonTok, Token.functionTok fname, Token.closeParenTok, Token.eofTok] 24 0 =
        .err (unexpectedMsg selector
          [Token.colonTok, Token.functionTok fname, Token.closeParenTok, Token.eofTok] 2) := by
      rw [consumeComplexSelector]
      rw [show skipWhitespace
        [Token.colonTok, Token.functionTok fname, Token.closeParenTok, Token.eofTok] 0 = 0
        from rfl]
      rw [g3]
    have g5 : consumeArgument selector
        [Token.colonTok, Token.functionTok fname, Token.closeParenTok, Token.eofTok] 25 0 =
        .err (unexpectedMsg selector
          [Token.colonTok, Token.functionTok fname, Token.closeParenTok, Token.eofTok] 2) := by
      rw [consumeArgument]
      rw [show skipWhitespace
        [Token.colonTok, Token.functionTok fname, Token.closeParenTok, Token.eofTok] 0 = 0
        from rfl]
      rw [show tokAt
        [Token.colonTok, Token.functionTok fname, Token.closeParenTok, Token.eofTok] 0 =
        Token.colonTok from rfl]
      rw [g4]
    have g6 : consumeFunctionArguments selector
        [Token.colonTok, Token.functionTok fname, Token.closeParenTok, Token.eofTok] 26 0 =
        .err (unexpectedMsg selector
          [Token.colonTok, Token.functionTok fname, Token.closeParenTok, Token.eofTok] 2) := by
      rw [consumeFunctionArguments, g5]
    rw [parseCSSTokens, parseCSSTokensR]
    try dsimp only
    rw [show appendEOF [Token.colonTok, Token.functionTok fname, Token.closeParenTok] =
      [Token.colonTok, Token.functionTok fname, Token.closeParenTok, Token.eofTok] from rfl]
    rw [show ([Token.colonTok, Token.functionTok fname, Token.closeParenTok,
      Token.eofTok]).find? Token.isUnsupported = none from rfl]
    try dsimp only
    rw [show parseFuel [Token.colonTok, Token.functionTok fname, Token.closeParenTok,
      Token.eofTok] = 26 from rfl]
    rw [g6]

/-- Witness for C10 with the custom name "foo". -/
theorem claim_C10_bareVsEmptyParens_witness :
    (parseCSSTokens ":foo" [Token.colonTok, Token.identTok "foo"] =
      .ok [CSSComplexSelector.mk [CSSClause.mk
        (CSSSimpleSelector.mk none [CSSFunction.mk "foo" []]) ""]] ∧
    parseCSSTokens ":foo" [Token.colonTok, Token.functionTok "foo", Token.closeParenTok] =
      .error (unexpectedMsg ":foo"
        [Token.colonTok, Token.functionTok "foo", Token.closeParenTok, Token.eofTok] 2)) :=
  claim_C10_bareVsEmptyParens ":foo" "foo" rfl rfl

end PlaywrightCss
